import Mathlib

/-!
Verification of the decision-and-execution core of the zookeeper-ha-demo
platform: the scheduler plan builder (`build_scheduler_plan`), its node
selection helpers (`pick_source`, `pick_target`), the run-once migration
executor (`maybe_rebalance_files`), and two frontend computations
(`applyLoadIndicator`, `taskStats`).

The scheduler definitions are a shallow embedding of the algorithm as laid
down in the repository's architecture document (`src/unnamed/part_000`,
sections 5 and 6: the `build_scheduler_plan` pseudocode and the surrounding
prose that fixes `init_counts`, `pick_source`, `pick_target`, the
`no_candidate` early return, and the `maybe_rebalance_files` execution
steps).  The frontend definitions are embedded from
`src/unnamed/part_001` (`applyLoadIndicator`, `taskStats`).
-/

namespace ZkDemo

/-- One entry of a FileRecord's migration history.  Migration events carry
`action = "auto_migrate"`, `fromNode` and `to`; creation events carry the
owning `node`.  The JSON key `from` is spelled `fromNode` because `from` is
a Lean keyword. -/
structure HistEvent where
  action : String
  fromNode : Option String := none
  toNode : Option String := none
  node : Option String := none
  timestamp : Nat := 0
  deriving DecidableEq

/-- A demo file, as stored in the `files` table: owning node, storage path,
size, and the append-only migration history. -/
structure FileRecord where
  id : String
  node : String
  path : String
  sizeBytes : Nat := 0
  history : List HistEvent := []
  deriving DecidableEq

/-- Per-node administrative state: the drain flag with its reason and
update time. -/
structure NodeState where
  node : String
  drained : Bool
  reason : Option String := none
  updatedAt : Nat := 0
  deriving DecidableEq

/-- The ephemeral scheduler plan produced by `build_scheduler_plan`. -/
structure SchedulerPlan where
  counts : List (String × Nat)
  sourceNode : Option String
  targetNode : Option String
  candidate : Option FileRecord
  delta : Int
  threshold : Nat
  shouldMigrate : Bool
  reason : String
  message : String
  totalFiles : Nat
  drainedNodes : List String
  deriving DecidableEq

/-- Number of files currently owned by node `n`; the per-node value held in
the plan's `counts` mapping (`init_counts` starts every configured node at
0 and each file record increments its owning node by one). -/
def countNode (files : List FileRecord) (n : String) : Nat :=
  files.countP (fun f => f.node = n)

/-- Whether node `n` is drained according to the persisted node states; a
node with no recorded state is implicitly not drained. -/
def isDrained (states : List NodeState) (n : String) : Bool :=
  match states.find? (fun s => s.node = n) with
  | some s => s.drained
  | none => false

/-- Lowest-count node of a list, ties broken by first occurrence: a later
node replaces the current best only when its count is strictly smaller. -/
def pickMinBy (cnt : String → Nat) : List String → Option String
  | [] => none
  | n :: rest =>
    match pickMinBy cnt rest with
    | none => some n
    | some m => if cnt m < cnt n then some m else some n

/-- Highest-count node of a list, ties broken by first occurrence. -/
def pickMaxBy (cnt : String → Nat) : List String → Option String
  | [] => none
  | n :: rest =>
    match pickMaxBy cnt rest with
    | none => some n
    | some m => if cnt n < cnt m then some m else some n

/-- Source selection (part_000 section 5 step 3): if some drained node
still holds files, take the highest-count node among those, so drained
nodes are emptied first; otherwise take the highest-count node overall. -/
def pick_source (cnt : String → Nat) (drained : String → Bool)
    (configured : List String) : Option String :=
  let dwf := configured.filter (fun n => drained n && decide (0 < cnt n))
  if dwf.isEmpty then pickMaxBy cnt configured else pickMaxBy cnt dwf

/-- Target selection (part_000 section 5 step 3): the lowest-count node
among non-drained nodes; if every configured node is drained, fall back to
the globally lowest-count node. -/
def pick_target (cnt : String → Nat) (drained : String → Bool)
    (configured : List String) : Option String :=
  let nd := configured.filter (fun n => !(drained n))
  if nd.isEmpty then pickMinBy cnt configured else pickMinBy cnt nd

/-- The scheduler plan builder, embedded from the pseudocode and prose of
part_000 section 5: zero-filled counts over the configured nodes, source
and target selection, the `no_candidate` early return when the source node
has no file record (step 4), then the decision gates in the pseudocode's
order: `delta < threshold` first, then `target is none or source = target`,
otherwise migrate. -/
def build_scheduler_plan (files : List FileRecord) (nodeStates : List NodeState)
    (configured : List String) (threshold : Nat) : SchedulerPlan :=
  let base : SchedulerPlan :=
    { counts := configured.map (fun n => (n, countNode files n))
      sourceNode := none
      targetNode := none
      candidate := none
      delta := 0
      threshold := threshold
      shouldMigrate := false
      reason := "no_target"
      message := "no nodes configured"
      totalFiles := files.length
      drainedNodes := configured.filter (fun n => isDrained nodeStates n) }
  match pick_source (countNode files) (isDrained nodeStates) configured,
        pick_target (countNode files) (isDrained nodeStates) configured with
  | some s, some t =>
    match files.find? (fun f => f.node = s) with
    | none =>
      { base with
          sourceNode := some s
          targetNode := some t
          reason := "no_candidate"
          message := "source node has no file record" }
    | some c =>
      let delta : Int := (countNode files s : Int) - (countNode files t : Int)
      if delta < (threshold : Int) then
        { base with
            sourceNode := some s
            targetNode := some t
            candidate := some c
            delta := delta
            reason := "below_threshold"
            message := "difference below threshold" }
      else if s = t then
        { base with
            sourceNode := some s
            targetNode := some t
            candidate := some c
            delta := delta
            reason := "no_target"
            message := "no distinct target node" }
      else
        { base with
            sourceNode := some s
            targetNode := some t
            candidate := some c
            delta := delta
            shouldMigrate := true
            reason := "ok"
            message := "migration recommended" }
  | _, _ => base

/-- The run-once migration executor, embedded from part_000 section 6
(`maybe_rebalance_files`): rebuild the plan; if it does not recommend a
migration (or carries no candidate) return immediately without touching
anything; otherwise move the candidate to the target node, append one
`auto_migrate` event to its history, and update its node and path in one
record write.  The physical disk move is abstracted to the path update;
the Boolean result mirrors the executed flag. -/
def maybe_rebalance_files (files : List FileRecord) (nodeStates : List NodeState)
    (configured : List String) (threshold : Nat) (now : Nat) :
    Bool × List FileRecord :=
  let plan := build_scheduler_plan files nodeStates configured threshold
  if plan.shouldMigrate then
    match plan.candidate, plan.sourceNode, plan.targetNode with
    | some c, some s, some t =>
      let event : HistEvent :=
        { action := "auto_migrate", fromNode := some s, toNode := some t
          node := none, timestamp := now }
      let moved : FileRecord :=
        { c with node := t, path := t ++ "/" ++ c.id, history := c.history ++ [event] }
      (true, files.map (fun f => if f.id = c.id then moved else f))
    | _, _, _ => (false, files)
  else (false, files)

/-- The node a history event points at: its `to` field for migration
events, falling back to `node` for creation events. -/
def eventTarget (e : HistEvent) : Option String :=
  match e.toNode with
  | some x => some x
  | none => e.node

/-- The history consistency invariant: the final history entry's `to` (or
`node`) names the record's current node. -/
def lastConsistent (r : FileRecord) : Prop :=
  ∀ e, r.history.getLast? = some e → eventTarget e = some r.node

/-- JavaScript `Math.round (num / den)` for natural `num` and positive
`den`: rounding half up. -/
def jsRound (num den : Nat) : Nat :=
  (2 * num + den) / (2 * den)

/-- Embedded from part_001 `applyLoadIndicator`: 0 when the maximum is 0
(JavaScript falsy guard), otherwise the rounded percentage clamped into
the interval from 5 to 100. -/
def applyLoadIndicator (value maxCount : Nat) : Nat :=
  if maxCount = 0 then 0
  else min 100 (max 5 (jsRound (value * 100) maxCount))

/-- A workload task as seen by the frontend: only its status matters. -/
structure DemoTask where
  status : String
  deriving DecidableEq

/-- The statistics record computed by the frontend `taskStats` computed
property. -/
structure TaskStats where
  total : Nat
  succeeded : Nat
  running : Nat
  failed : Nat
  successRate : Nat
  deriving DecidableEq

/-- Embedded from part_001 `taskStats`: tallies by status and a success
rate whose divisor is guarded to 1 when no task has finished (the
JavaScript `succeeded + failed || 1` idiom). -/
def taskStats (tasks : List DemoTask) : TaskStats :=
  let total := tasks.length
  let succeeded := (tasks.filter (fun t => t.status = "succeeded")).length
  let running := (tasks.filter (fun t => t.status = "running")).length
  let failed := (tasks.filter (fun t => t.status = "failed")).length
  let denom := if succeeded + failed = 0 then 1 else succeeded + failed
  let successRate := if 0 < total then jsRound (succeeded * 100) denom else 0
  { total := total, succeeded := succeeded, running := running
    failed := failed, successRate := successRate }

/-- A demo file record pinned to a node, used by the concrete scenarios. -/
def mkFile (i : String) (n : String) : FileRecord :=
  { id := i, node := n, path := n ++ "/" ++ i, sizeBytes := 1024
    history := [{ action := "create", node := some n }] }

/-- The three-node scenario of part_000 section 5.2: 12 files on zk1, 5 on
zk2, 4 on zk3. -/
def scenarioFiles : List FileRecord :=
  ((List.range 12).map (fun i => mkFile ("a" ++ toString i) "zk1")) ++
  ((List.range 5).map (fun i => mkFile ("b" ++ toString i) "zk2")) ++
  ((List.range 4).map (fun i => mkFile ("c" ++ toString i) "zk3"))

/-- The configured node pool of the scenarios. -/
def scenarioNodes : List String := ["zk1", "zk2", "zk3"]

/-- Characterisation of a plan that recommends migration: it can only come
out of the final branch of `build_scheduler_plan`, so source, target and
candidate all exist, the source differs from the target, and the count
difference reaches the threshold. -/
lemma build_plan_migrate_spec (files : List FileRecord) (ns : List NodeState)
    (cfg : List String) (th : Nat)
    (h : (build_scheduler_plan files ns cfg th).shouldMigrate = true) :
    ∃ s t c,
      pick_source (countNode files) (isDrained ns) cfg = some s ∧
      pick_target (countNode files) (isDrained ns) cfg = some t ∧
      files.find? (fun f => f.node = s) = some c ∧
      s ≠ t ∧
      (th : Int) ≤ (countNode files s : Int) - (countNode files t : Int) ∧
      (build_scheduler_plan files ns cfg th).sourceNode = some s ∧
      (build_scheduler_plan files ns cfg th).targetNode = some t ∧
      (build_scheduler_plan files ns cfg th).candidate = some c ∧
      (build_scheduler_plan files ns cfg th).delta =
        (countNode files s : Int) - (countNode files t : Int) ∧
      (build_scheduler_plan files ns cfg th).reason = "ok" := by
  rcases hps : pick_source (countNode files) (isDrained ns) cfg with _ | s
  · simp [build_scheduler_plan, hps] at h
  rcases hpt : pick_target (countNode files) (isDrained ns) cfg with _ | t
  · simp [build_scheduler_plan, hps, hpt] at h
  rcases hf : files.find? (fun f => f.node = s) with _ | c
  · simp [build_scheduler_plan, hps, hpt, hf] at h
  by_cases hlt : ((countNode files s : Int) - (countNode files t : Int) < (th : Int))
  · simp [build_scheduler_plan, hps, hpt, hf, hlt] at h
  by_cases hst : s = t
  · subst hst
    simp [build_scheduler_plan, hps, hpt, hf, hlt] at h
    split at h <;> simp at h
  refine ⟨s, t, c, rfl, rfl, hf, hst, by omega, ?_, ?_, ?_, ?_, ?_⟩ <;>
    simp [build_scheduler_plan, hps, hpt, hf, hlt, hst]

/-- C1: whenever the plan recommends migration, the candidate is present,
the source node differs from the target node, and the count difference
reaches the configured threshold. -/
theorem plan_migrate_invariant (files : List FileRecord) (ns : List NodeState)
    (cfg : List String) (th : Nat)
    (h : (build_scheduler_plan files ns cfg th).shouldMigrate = true) :
    (build_scheduler_plan files ns cfg th).candidate ≠ none ∧
    (build_scheduler_plan files ns cfg th).sourceNode ≠
      (build_scheduler_plan files ns cfg th).targetNode ∧
    (th : Int) ≤ (build_scheduler_plan files ns cfg th).delta := by
  obtain ⟨s, t, c, -, -, -, hst, hle, hsrc, htgt, hcand, hdelta, -⟩ :=
    build_plan_migrate_spec files ns cfg th h
  refine ⟨by simp [hcand], ?_, by rw [hdelta]; exact hle⟩
  rw [hsrc, htgt]
  simp [hst]

/-- Witness for C1 on the three-node scenario. -/
theorem plan_migrate_invariant_witness :
    (build_scheduler_plan scenarioFiles [] scenarioNodes 5).shouldMigrate = true ∧
    ((build_scheduler_plan scenarioFiles [] scenarioNodes 5).candidate ≠ none ∧
     (build_scheduler_plan scenarioFiles [] scenarioNodes 5).sourceNode ≠
       (build_scheduler_plan scenarioFiles [] scenarioNodes 5).targetNode ∧
     (5 : Int) ≤ (build_scheduler_plan scenarioFiles [] scenarioNodes 5).delta) :=
  ⟨by decide, plan_migrate_invariant scenarioFiles [] scenarioNodes 5 (by decide)⟩

/-- C2 counterexample: with a single configured node holding one file and
threshold 5, the source equals the target and the difference is below the
threshold, yet the plan's reason is `below_threshold`, not `no_target`:
the threshold gate fires first, contrary to the claimed gate order. -/
theorem gate_order_counterexample :
    (build_scheduler_plan [mkFile "x" "zk1"] [] ["zk1"] 5).sourceNode =
      (build_scheduler_plan [mkFile "x" "zk1"] [] ["zk1"] 5).targetNode ∧
    (build_scheduler_plan [mkFile "x" "zk1"] [] ["zk1"] 5).delta < (5 : Int) ∧
    (build_scheduler_plan [mkFile "x" "zk1"] [] ["zk1"] 5).reason = "below_threshold" ∧
    (build_scheduler_plan [mkFile "x" "zk1"] [] ["zk1"] 5).reason ≠ "no_target" := by
  decide

/-- C2 as amended: the `below_threshold` gate is evaluated before the
`no_target` gate, so for every input that reaches the gates (a candidate
was selected) where both conditions hold, the plan's reason is
`below_threshold` and never `no_target`. -/
theorem gate_order_below_threshold_first (files : List FileRecord)
    (ns : List NodeState) (cfg : List String) (th : Nat)
    (hc : (build_scheduler_plan files ns cfg th).candidate ≠ none)
    (hd : (build_scheduler_plan files ns cfg th).delta < (th : Int))
    (hnt : (build_scheduler_plan files ns cfg th).targetNode = none ∨
      (build_scheduler_plan files ns cfg th).sourceNode =
        (build_scheduler_plan files ns cfg th).targetNode) :
    (build_scheduler_plan files ns cfg th).reason = "below_threshold" := by
  rcases hps : pick_source (countNode files) (isDrained ns) cfg with _ | s
  · simp [build_scheduler_plan, hps] at hc
  rcases hpt : pick_target (countNode files) (isDrained ns) cfg with _ | t
  · simp [build_scheduler_plan, hps, hpt] at hc
  rcases hf : files.find? (fun f => f.node = s) with _ | c
  · simp [build_scheduler_plan, hps, hpt, hf] at hc
  by_cases hlt : ((countNode files s : Int) - (countNode files t : Int) < (th : Int))
  · simp [build_scheduler_plan, hps, hpt, hf, hlt]
  · exfalso
    have hdelta : (build_scheduler_plan files ns cfg th).delta =
        (countNode files s : Int) - (countNode files t : Int) := by
      by_cases hst : s = t
      · subst hst
        have hth : th = 0 := by omega
        simp [build_scheduler_plan, hps, hpt, hf, hth]
      · simp [build_scheduler_plan, hps, hpt, hf, hlt, hst]
    rw [hdelta] at hd
    exact hlt hd

/-- Witness for the amended C2 on the single-node input. -/
theorem gate_order_below_threshold_first_witness :
    (build_scheduler_plan [mkFile "x" "zk1"] [] ["zk1"] 5).reason = "below_threshold" :=
  gate_order_below_threshold_first [mkFile "x" "zk1"] [] ["zk1"] 5
    (by decide) (by decide) (Or.inr (by decide))

/-- A node returned by `pickMinBy` belongs to the list it was picked from. -/
lemma pickMinBy_mem (cnt : String → Nat) :
    ∀ (l : List String) (m : String), pickMinBy cnt l = some m → m ∈ l := by
  intro l
  induction l with
  | nil => intro m h; simp [pickMinBy] at h
  | cons n rest ih =>
    intro m h
    simp only [pickMinBy] at h
    rcases hr : pickMinBy cnt rest with _ | m'
    · rw [hr] at h
      dsimp only at h
      injection h with h
      subst h
      exact List.mem_cons_self _ _
    · rw [hr] at h
      dsimp only at h
      by_cases hc : cnt m' < cnt n
      · rw [if_pos hc] at h
        injection h with h
        subst h
        exact List.mem_cons_of_mem _ (ih _ hr)
      · rw [if_neg hc] at h
        injection h with h
        subst h
        exact List.mem_cons_self _ _

/-- The plan's target node, when present, is exactly the node chosen by
`pick_target`. -/
lemma plan_target_eq (files : List FileRecord) (ns : List NodeState)
    (cfg : List String) (th : Nat) (t : String)
    (h : (build_scheduler_plan files ns cfg th).targetNode = some t) :
    pick_target (countNode files) (isDrained ns) cfg = some t := by
  rcases hps : pick_source (countNode files) (isDrained ns) cfg with _ | s
  · simp [build_scheduler_plan, hps] at h
  rcases hpt : pick_target (countNode files) (isDrained ns) cfg with _ | t'
  · simp [build_scheduler_plan, hps, hpt] at h
  rcases hf : files.find? (fun f => f.node = s) with _ | c
  · simp only [build_scheduler_plan, hps, hpt, hf] at h
    simp_all
  · simp only [build_scheduler_plan, hps, hpt, hf] at h
    split at h <;> try split at h
    all_goals simp_all

/-- C3: a drained node is never selected as the plan's target node unless
every configured node is drained; and in that all-drained case, the target
is the globally lowest-count node (first occurrence winning ties). -/
theorem target_never_drained (files : List FileRecord) (ns : List NodeState)
    (cfg : List String) (th : Nat) (t : String)
    (h : (build_scheduler_plan files ns cfg th).targetNode = some t) :
    (isDrained ns t = true → ∀ n ∈ cfg, isDrained ns n = true) ∧
    ((∀ n ∈ cfg, isDrained ns n = true) → pickMinBy (countNode files) cfg = some t) := by
  have hpt := plan_target_eq files ns cfg th t h
  simp only [pick_target] at hpt
  by_cases hnd : (cfg.filter (fun n => !(isDrained ns n))).isEmpty
  · rw [if_pos hnd] at hpt
    have hall : ∀ n ∈ cfg, isDrained ns n = true := by
      intro n hn
      have hfil := List.isEmpty_iff.mp hnd
      have := (List.filter_eq_nil_iff.mp hfil) n hn
      simpa using this
    exact ⟨fun _ => hall, fun _ => hpt⟩
  · rw [if_neg hnd] at hpt
    have hmem := pickMinBy_mem _ _ _ hpt
    have hfil := List.mem_filter.mp hmem
    have hnotdr : isDrained ns t = false := by simpa using hfil.2
    constructor
    · intro hdr
      rw [hnotdr] at hdr
      cases hdr
    · intro hall
      have := hall t hfil.1
      rw [hnotdr] at this
      cases this

/-- Witness for C3: all three nodes drained with counts 3, 1 and 0; the
target falls back to zk3, the globally lowest-count node, even though it
is drained. -/
theorem target_never_drained_witness :
    (isDrained
        [{ node := "zk1", drained := true }, { node := "zk2", drained := true },
         { node := "zk3", drained := true }] "zk3" = true →
      ∀ n ∈ scenarioNodes,
        isDrained
          [{ node := "zk1", drained := true }, { node := "zk2", drained := true },
           { node := "zk3", drained := true }] n = true) ∧
    ((∀ n ∈ scenarioNodes,
        isDrained
          [{ node := "zk1", drained := true }, { node := "zk2", drained := true },
           { node := "zk3", drained := true }] n = true) →
      pickMinBy
        (countNode [mkFile "a0" "zk1", mkFile "a1" "zk1", mkFile "a2" "zk1",
          mkFile "b0" "zk2"]) scenarioNodes = some "zk3") :=
  target_never_drained
    [mkFile "a0" "zk1", mkFile "a1" "zk1", mkFile "a2" "zk1", mkFile "b0" "zk2"]
    [{ node := "zk1", drained := true }, { node := "zk2", drained := true },
     { node := "zk3", drained := true }]
    scenarioNodes 5 "zk3" (by decide)

/-- The plan's `counts` field is the zero-filled per-node tally, in every
branch of the plan builder. -/
lemma plan_counts_eq (files : List FileRecord) (ns : List NodeState)
    (cfg : List String) (th : Nat) :
    (build_scheduler_plan files ns cfg th).counts =
      cfg.map (fun n => (n, countNode files n)) := by
  simp only [build_scheduler_plan]
  split
  · split
    · rfl
    · split
      · rfl
      · split <;> rfl
  · rfl

/-- The plan's `totalFiles` field is the length of the file list, in every
branch of the plan builder. -/
lemma plan_totalFiles_eq (files : List FileRecord) (ns : List NodeState)
    (cfg : List String) (th : Nat) :
    (build_scheduler_plan files ns cfg th).totalFiles = files.length := by
  simp only [build_scheduler_plan]
  split
  · split
    · rfl
    · split
      · rfl
      · split <;> rfl
  · rfl

/-- Summing a pointwise sum of two tallies splits into two sums. -/
lemma sum_map_add (l : List String) (a b : String → Nat) :
    (l.map (fun n => a n + b n)).sum = (l.map a).sum + (l.map b).sum := by
  induction l with
  | nil => simp
  | cons x xs ih =>
    simp only [List.map_cons, List.sum_cons, ih]
    omega

/-- An indicator summed over a list avoiding the point vanishes. -/
lemma sum_indicator_zero (x : String) (l : List String) (hx : x ∉ l) :
    (l.map (fun n => if x = n then 1 else 0)).sum = 0 := by
  induction l with
  | nil => simp
  | cons y ys ih =>
    simp only [List.map_cons, List.sum_cons]
    have hxy : x ≠ y := by
      intro h
      exact hx (h ▸ List.mem_cons_self _ _)
    rw [if_neg hxy, ih (fun h => hx (List.mem_cons_of_mem _ h))]

/-- An indicator summed over a duplicate-free list containing the point is
one. -/
lemma sum_indicator_one (x : String) (l : List String) (hnd : l.Nodup)
    (hx : x ∈ l) :
    (l.map (fun n => if x = n then 1 else 0)).sum = 1 := by
  induction l with
  | nil => cases hx
  | cons y ys ih =>
    simp only [List.map_cons, List.sum_cons]
    rcases List.mem_cons.mp hx with h | h
    · subst h
      rw [if_pos rfl, sum_indicator_zero x ys (List.nodup_cons.mp hnd).1]
    · have hxy : x ≠ y := by
        intro he
        subst he
        exact (List.nodup_cons.mp hnd).1 h
      rw [if_neg hxy, ih (List.nodup_cons.mp hnd).2 h]

/-- Each file on a configured node contributes exactly one to the tally,
so the per-node counts sum to the number of files. -/
lemma sum_countNode (cfg : List String) (hnd : cfg.Nodup) :
    ∀ files : List FileRecord, (∀ f ∈ files, f.node ∈ cfg) →
      (cfg.map (fun n => countNode files n)).sum = files.length := by
  intro files
  induction files with
  | nil =>
    intro _
    simp [countNode]
  | cons f fs ih =>
    intro hall
    have hcons : ∀ n : String,
        countNode (f :: fs) n = (if f.node = n then 1 else 0) + countNode fs n := by
      intro n
      simp only [countNode, List.countP_cons]
      by_cases h : f.node = n <;> simp [h, Nat.add_comm]
    simp only [hcons]
    rw [sum_map_add, sum_indicator_one f.node cfg hnd (hall f (List.mem_cons_self _ _)),
      ih (fun g hg => hall g (List.mem_cons_of_mem _ hg))]
    rw [List.length_cons]
    omega

/-- C4: the plan's counts mapping has exactly one entry per configured
node, keyed by the configured nodes in order, and (when every file sits on
a configured node and the configured nodes are distinct, as a Python dict
of counts presumes) its values sum to the plan's `totalFiles`. -/
theorem plan_counts_complete (files : List FileRecord) (ns : List NodeState)
    (cfg : List String) (th : Nat) (hnd : cfg.Nodup)
    (hall : ∀ f ∈ files, f.node ∈ cfg) :
    (build_scheduler_plan files ns cfg th).counts.map Prod.fst = cfg ∧
    (build_scheduler_plan files ns cfg th).counts.length = cfg.length ∧
    ((build_scheduler_plan files ns cfg th).counts.map Prod.snd).sum =
      (build_scheduler_plan files ns cfg th).totalFiles := by
  rw [plan_counts_eq, plan_totalFiles_eq]
  refine ⟨?_, by simp, ?_⟩
  · rw [List.map_map]
    have h1 : (Prod.fst ∘ fun n : String => (n, countNode files n)) = id := rfl
    rw [h1, List.map_id]
  · rw [List.map_map]
    have h2 : (Prod.snd ∘ fun n : String => (n, countNode files n)) =
        fun n => countNode files n := rfl
    rw [h2]
    exact sum_countNode cfg hnd files hall

/-- Witness for C4 on the three-node scenario. -/
theorem plan_counts_complete_witness :
    (build_scheduler_plan scenarioFiles [] scenarioNodes 5).counts.map Prod.fst =
      scenarioNodes ∧
    (build_scheduler_plan scenarioFiles [] scenarioNodes 5).counts.length =
      scenarioNodes.length ∧
    ((build_scheduler_plan scenarioFiles [] scenarioNodes 5).counts.map Prod.snd).sum =
      (build_scheduler_plan scenarioFiles [] scenarioNodes 5).totalFiles :=
  plan_counts_complete scenarioFiles [] scenarioNodes 5 (by decide) (by decide)

/-- Counting over a cons splits off the head's contribution. -/
lemma countNode_cons (f : FileRecord) (fs : List FileRecord) (n : String) :
    countNode (f :: fs) n = countNode fs n + (if f.node = n then 1 else 0) := by
  simp only [countNode, List.countP_cons]
  by_cases h : f.node = n <;> simp [h]

/-- Updating by an id that occurs nowhere in the list changes nothing. -/
lemma map_update_id (moved : FileRecord) (cid : String) :
    ∀ l : List FileRecord, (∀ f ∈ l, f.id ≠ cid) →
      l.map (fun f => if f.id = cid then moved else f) = l := by
  intro l
  induction l with
  | nil => intro _; rfl
  | cons g gs ih =>
    intro h
    simp only [List.map_cons]
    rw [if_neg (h g (List.mem_cons_self _ _)),
      ih (fun f hf => h f (List.mem_cons_of_mem _ hf))]

/-- Replacing the unique record with id `c.id` by `moved` exchanges the
contribution of `c.node` for that of `moved.node` in every per-node
count. -/
lemma countNode_map_update (c moved : FileRecord) (n : String) :
    ∀ files : List FileRecord, (files.map (fun f => f.id)).Nodup → c ∈ files →
      countNode (files.map (fun f => if f.id = c.id then moved else f)) n
          + (if c.node = n then 1 else 0)
        = countNode files n + (if moved.node = n then 1 else 0) := by
  intro files
  induction files with
  | nil =>
    intro _ hc
    cases hc
  | cons g gs ih =>
    intro hnd hc
    have hnd' : g.id ∉ gs.map (fun f => f.id) ∧ (gs.map (fun f => f.id)).Nodup :=
      List.nodup_cons.mp (by simpa using hnd)
    rcases List.mem_cons.mp hc with h | h
    · subst h
      have hmap : List.map (fun f => if f.id = c.id then moved else f) (c :: gs)
          = moved :: List.map (fun f => if f.id = c.id then moved else f) gs := by
        simp
      rw [hmap, map_update_id moved c.id gs
        (fun f hf hf2 => hnd'.1 (hf2 ▸ List.mem_map_of_mem (fun f => f.id) hf))]
      rw [countNode_cons, countNode_cons]
      omega
    · have hgid : g.id ≠ c.id := by
        intro he
        exact hnd'.1 (he ▸ List.mem_map_of_mem (fun f => f.id) h)
      simp only [List.map_cons, if_neg hgid]
      rw [countNode_cons, countNode_cons]
      have := ih hnd'.2 h
      omega

/-- The record produced by a successful migration of candidate `c` from
`s` to `t`: node and path updated, one `auto_migrate` event appended. -/
def migratedRecord (c : FileRecord) (s t : String) (now : Nat) : FileRecord :=
  { c with
      node := t
      path := t ++ "/" ++ c.id
      history := c.history ++
        [{ action := "auto_migrate", fromNode := some s, toNode := some t,
           node := none, timestamp := now }] }

/-- C5: when the plan recommends migration, the run-once executor moves
exactly the candidate: the source count drops by one, the target count
rises by one, the migrated record's history gains exactly one
`auto_migrate` entry whose target is the target node, and the invariant
that the final history entry names the record's current node is
preserved for every record. -/
theorem migration_roundtrip (files : List FileRecord) (ns : List NodeState)
    (cfg : List String) (th : Nat) (now : Nat)
    (hnd : (files.map (fun f => f.id)).Nodup)
    (hmig : (build_scheduler_plan files ns cfg th).shouldMigrate = true) :
    ∃ s t c,
      (build_scheduler_plan files ns cfg th).sourceNode = some s ∧
      (build_scheduler_plan files ns cfg th).targetNode = some t ∧
      (build_scheduler_plan files ns cfg th).candidate = some c ∧
      (maybe_rebalance_files files ns cfg th now).fst = true ∧
      countNode (maybe_rebalance_files files ns cfg th now).snd s + 1 =
        countNode files s ∧
      countNode (maybe_rebalance_files files ns cfg th now).snd t =
        countNode files t + 1 ∧
      (∃ moved, moved ∈ (maybe_rebalance_files files ns cfg th now).snd ∧
        moved.id = c.id ∧ moved.node = t ∧
        moved.history = c.history ++
          [{ action := "auto_migrate", fromNode := some s, toNode := some t,
             node := none, timestamp := now }] ∧
        moved.history.getLast? = some
          { action := "auto_migrate", fromNode := some s, toNode := some t,
            node := none, timestamp := now } ∧
        lastConsistent moved) ∧
      ((∀ f ∈ files, lastConsistent f) →
        ∀ g ∈ (maybe_rebalance_files files ns cfg th now).snd, lastConsistent g) := by
  obtain ⟨s, t, c, hps, hpt, hf, hst, hle, hsrc, htgt, hcand, hdelta, hok⟩ :=
    build_plan_migrate_spec files ns cfg th hmig
  have hcnode : c.node = s := by
    have := List.find?_some hf
    simpa using this
  have hcmem : c ∈ files := List.mem_of_find?_eq_some hf
  have hres : maybe_rebalance_files files ns cfg th now =
      (true, files.map (fun f => if f.id = c.id then migratedRecord c s t now else f)) := by
    simp only [maybe_rebalance_files, hmig, hcand, hsrc, htgt, if_true, migratedRecord]
  have hmovedhist : (migratedRecord c s t now).history = c.history ++
      [{ action := "auto_migrate", fromNode := some s, toNode := some t,
         node := none, timestamp := now }] := rfl
  have hmovednode : (migratedRecord c s t now).node = t := rfl
  have hlast : lastConsistent (migratedRecord c s t now) := by
    intro e he
    rw [hmovedhist, List.getLast?_concat] at he
    injection he with he
    subst he
    rfl
  refine ⟨s, t, c, hsrc, htgt, hcand, by rw [hres], ?_, ?_, ?_, ?_⟩
  · rw [hres]
    dsimp only
    have hcount := countNode_map_update c (migratedRecord c s t now) s files hnd hcmem
    have h1 : (if c.node = s then 1 else 0) = 1 := by simp [hcnode]
    have h2 : (if (migratedRecord c s t now).node = s then 1 else 0) = 0 := by
      rw [hmovednode]
      exact if_neg (fun he => hst he.symm)
    rw [h1, h2] at hcount
    omega
  · rw [hres]
    dsimp only
    have hcount := countNode_map_update c (migratedRecord c s t now) t files hnd hcmem
    have h1 : (if c.node = t then 1 else 0) = 0 := by
      rw [hcnode]
      exact if_neg hst
    have h2 : (if (migratedRecord c s t now).node = t then 1 else 0) = 1 := by
      rw [hmovednode]
      exact if_pos rfl
    rw [h1, h2] at hcount
    omega
  · refine ⟨migratedRecord c s t now, ?_, rfl, rfl, hmovedhist, ?_, hlast⟩
    · rw [hres]
      have := List.mem_map_of_mem
        (fun f => if f.id = c.id then migratedRecord c s t now else f) hcmem
      simpa using this
    · rw [hmovedhist]
      exact List.getLast?_concat _
  · intro hall g hg
    rw [hres] at hg
    rcases List.mem_map.mp hg with ⟨f, hfmem, hfe⟩
    by_cases hid : f.id = c.id
    · rw [if_pos hid] at hfe
      rw [← hfe]
      exact hlast
    · rw [if_neg hid] at hfe
      rw [← hfe]
      exact hall f hfmem

/-- Witness for C5: a concrete migration on the three-node scenario. -/
theorem migration_roundtrip_witness :
    ∃ s t c,
      (build_scheduler_plan scenarioFiles [] scenarioNodes 5).sourceNode = some s ∧
      (build_scheduler_plan scenarioFiles [] scenarioNodes 5).targetNode = some t ∧
      (build_scheduler_plan scenarioFiles [] scenarioNodes 5).candidate = some c ∧
      (maybe_rebalance_files scenarioFiles [] scenarioNodes 5 7).fst = true ∧
      countNode (maybe_rebalance_files scenarioFiles [] scenarioNodes 5 7).snd s + 1 =
        countNode scenarioFiles s ∧
      countNode (maybe_rebalance_files scenarioFiles [] scenarioNodes 5 7).snd t =
        countNode scenarioFiles t + 1 ∧
      (∃ moved, moved ∈ (maybe_rebalance_files scenarioFiles [] scenarioNodes 5 7).snd ∧
        moved.id = c.id ∧ moved.node = t ∧
        moved.history = c.history ++
          [{ action := "auto_migrate", fromNode := some s, toNode := some t,
             node := none, timestamp := 7 }] ∧
        moved.history.getLast? = some
          { action := "auto_migrate", fromNode := some s, toNode := some t,
            node := none, timestamp := 7 } ∧
        lastConsistent moved) ∧
      ((∀ f ∈ scenarioFiles, lastConsistent f) →
        ∀ g ∈ (maybe_rebalance_files scenarioFiles [] scenarioNodes 5 7).snd,
          lastConsistent g) :=
  migration_roundtrip scenarioFiles [] scenarioNodes 5 7 (by decide) (by decide)

/-- A plan that recommends migration always carries the reason `ok`. -/
lemma migrate_reason_ok (files : List FileRecord) (ns : List NodeState)
    (cfg : List String) (th : Nat)
    (h : (build_scheduler_plan files ns cfg th).shouldMigrate = true) :
    (build_scheduler_plan files ns cfg th).reason = "ok" := by
  obtain ⟨-, -, -, -, -, -, -, -, -, -, -, -, hok⟩ :=
    build_plan_migrate_spec files ns cfg th h
  exact hok

/-- C6: invoking the run-once executor on a plan that does not recommend
migration, in particular one whose reason is `below_threshold` or
`no_candidate`, is a no-op: it reports executed = false and returns the
file records untouched, so every per-node count is unchanged. -/
theorem run_once_noop (files : List FileRecord) (ns : List NodeState)
    (cfg : List String) (th : Nat) (now : Nat)
    (h : (build_scheduler_plan files ns cfg th).reason = "below_threshold" ∨
      (build_scheduler_plan files ns cfg th).reason = "no_candidate" ∨
      (build_scheduler_plan files ns cfg th).shouldMigrate = false) :
    maybe_rebalance_files files ns cfg th now = (false, files) := by
  have hsm : (build_scheduler_plan files ns cfg th).shouldMigrate = false := by
    cases hx : (build_scheduler_plan files ns cfg th).shouldMigrate
    · rfl
    · have hok := migrate_reason_ok files ns cfg th hx
      rcases h with h | h | h
      · rw [hok] at h
        exact absurd h (by decide)
      · rw [hok] at h
        exact absurd h (by decide)
      · rw [hx] at h
        cases h
  simp [maybe_rebalance_files, hsm]

/-- Witness for C6: the single-node below-threshold plan leaves the single
file untouched. -/
theorem run_once_noop_witness :
    maybe_rebalance_files [mkFile "x" "zk1"] [] ["zk1"] 5 3 =
      (false, [mkFile "x" "zk1"]) :=
  run_once_noop [mkFile "x" "zk1"] [] ["zk1"] 5 3 (Or.inl (by decide))

/-- C7 counterexample: on counts zk1 = 12, zk2 = 5, zk3 = 4 with zk3
drained and threshold 5, the drain-priority source rule picks the drained
zk3 (which still holds files) as source, so the delta is 4 - 5 = -1, not
7, and no migration is recommended - contradicting the claimed
targetNode = zk2, delta = 7, shouldMigrate = true outcome. -/
theorem drained_scenario_counterexample :
    (build_scheduler_plan scenarioFiles [{ node := "zk3", drained := true }]
        scenarioNodes 5).targetNode = some "zk2" ∧
    (build_scheduler_plan scenarioFiles [{ node := "zk3", drained := true }]
        scenarioNodes 5).shouldMigrate = false ∧
    (build_scheduler_plan scenarioFiles [{ node := "zk3", drained := true }]
        scenarioNodes 5).delta ≠ 7 := by
  decide

/-- C7 as amended: on counts zk1 = 12, zk2 = 5, zk3 = 4 with threshold 5
the plan selects source zk1, target zk3, delta 8 and recommends migration;
with zk3 drained, the drain-priority rule instead selects the drained zk3
as source and zk2 as target, the delta is -1, and the plan reports
`below_threshold` with no migration. -/
theorem scenario_plans :
    ((build_scheduler_plan scenarioFiles [] scenarioNodes 5).sourceNode = some "zk1" ∧
     (build_scheduler_plan scenarioFiles [] scenarioNodes 5).targetNode = some "zk3" ∧
     (build_scheduler_plan scenarioFiles [] scenarioNodes 5).delta = 8 ∧
     (build_scheduler_plan scenarioFiles [] scenarioNodes 5).shouldMigrate = true) ∧
    ((build_scheduler_plan scenarioFiles [{ node := "zk3", drained := true }]
        scenarioNodes 5).sourceNode = some "zk3" ∧
     (build_scheduler_plan scenarioFiles [{ node := "zk3", drained := true }]
        scenarioNodes 5).targetNode = some "zk2" ∧
     (build_scheduler_plan scenarioFiles [{ node := "zk3", drained := true }]
        scenarioNodes 5).delta = -1 ∧
     (build_scheduler_plan scenarioFiles [{ node := "zk3", drained := true }]
        scenarioNodes 5).shouldMigrate = false ∧
     (build_scheduler_plan scenarioFiles [{ node := "zk3", drained := true }]
        scenarioNodes 5).reason = "below_threshold") := by
  decide

/-- Rounding a ratio that is at most one yields at most one hundred. -/
lemma jsRound_le_100 (s d : Nat) (hd : 0 < d) (hsd : s ≤ d) :
    jsRound (s * 100) d ≤ 100 := by
  have h : 2 * (s * 100) + d < 101 * (2 * d) := by omega
  have := (Nat.div_lt_iff_lt_mul (by omega : 0 < 2 * d)).mpr h
  unfold jsRound
  omega

/-- C9: `applyLoadIndicator` returns 0 when the maximum is 0, and otherwise
a value clamped into the interval from 5 to 100; in particular a node with
zero files still reports an indicator of exactly 5. -/
theorem applyLoadIndicator_range (value m : Nat) :
    (m = 0 → applyLoadIndicator value m = 0) ∧
    (m ≠ 0 → 5 ≤ applyLoadIndicator value m ∧ applyLoadIndicator value m ≤ 100) ∧
    (m ≠ 0 → applyLoadIndicator 0 m = 5) := by
  refine ⟨fun h => by simp [applyLoadIndicator, h], fun h => ?_, fun h => ?_⟩
  · simp only [applyLoadIndicator, if_neg h]
    omega
  · have h0 : jsRound 0 m = 0 := Nat.div_eq_of_lt (by omega)
    simp [applyLoadIndicator, h, h0]

/-- Witness for C9 at concrete inputs. -/
theorem applyLoadIndicator_range_witness :
    (5 ≤ applyLoadIndicator 9 7 ∧ applyLoadIndicator 9 7 ≤ 100) ∧
    applyLoadIndicator 0 7 = 5 :=
  ⟨(applyLoadIndicator_range 9 7).2.1 (by decide),
   (applyLoadIndicator_range 0 7).2.2 (by decide)⟩

/-- C10: the frontend success rate is always between 0 and 100, is 0 for an
empty task list, and is 0 (without any division by zero, thanks to the
guarded divisor) when no task has succeeded or failed. -/
theorem taskStats_successRate_bounds (tasks : List DemoTask) :
    (taskStats tasks).successRate ≤ 100 ∧
    (tasks = [] → (taskStats tasks).successRate = 0) ∧
    ((taskStats tasks).succeeded + (taskStats tasks).failed = 0 →
      (taskStats tasks).successRate = 0) := by
  simp only [taskStats]
  refine ⟨?_, ?_, ?_⟩
  · by_cases ht : 0 < tasks.length
    · simp only [if_pos ht]
      by_cases hz :
          (tasks.filter (fun t => t.status = "succeeded")).length +
            (tasks.filter (fun t => t.status = "failed")).length = 0
      · simp only [if_pos hz]
        exact jsRound_le_100 _ _ (by omega) (by omega)
      · simp only [if_neg hz]
        exact jsRound_le_100 _ _ (by omega) (by omega)
    · simp [if_neg ht]
  · intro h
    subst h
    simp
  · intro h
    have hs : (tasks.filter (fun t => t.status = "succeeded")).length = 0 := by omega
    by_cases ht : 0 < tasks.length
    · have hz : (tasks.filter (fun t => t.status = "succeeded")).length +
          (tasks.filter (fun t => t.status = "failed")).length = 0 := by omega
      have h0 : jsRound ((tasks.filter (fun t => t.status = "succeeded")).length * 100) 1
          = 0 := by
        rw [hs]
        exact Nat.div_eq_of_lt (by omega)
      rw [if_pos ht, if_pos hz]
      exact h0
    · simp [if_neg ht]

/-- Witness for C10 at a concrete input. -/
theorem taskStats_successRate_bounds_witness :
    (taskStats ([] : List DemoTask)).successRate ≤ 100 ∧
    (taskStats ([] : List DemoTask)).successRate = 0 :=
  ⟨(taskStats_successRate_bounds []).1,
   (taskStats_successRate_bounds []).2.1 rfl⟩

end ZkDemo
